import Mathlib

/-!
# prometheus-healthchecks: one check cycle and its pings

A shallow embedding of `main.go`.  The program talks to two HTTP servers and
keeps no state of its own, so a run of `check` is modelled as the list of
effects it performs, in order, given what the outside world answers.
-/

set_option maxRecDepth 1000000

namespace PrometheusHealthchecks

/-- An argument of type `any`, as `main.go` passes them to `slog` and to
`failureMsg`: a string, or an `error` (carried as the text of its `Error()`). -/
inductive GoAny where
  | str (s : String)
  | err (text : String)
  deriving DecidableEq, Repr

/-- The text `slog.Value.String()` gives for a value: a string is itself, an
error is formatted with `fmt`, which prints its `Error()`. -/
def GoAny.text : GoAny → String
  | .str s => s
  | .err e => e

/-- An `slog.Attr`: a key and a value. -/
structure Attr where
  Key : String
  Value : GoAny
  deriving DecidableEq, Repr

/-- `slog.Attr.String`: the key, an equals sign, the value. -/
def Attr.String (a : Attr) : String :=
  a.Key ++ "=" ++ a.Value.text

/-- The key `slog` gives to a value that has no string key in front of it. -/
def badKey : String := "!BADKEY"

/-- `slog.Record.Add`: the arguments are consumed left to right (slog's
`argsToAttr`): a string is a key and takes the next argument as its value; a
string in last position, or a value that is not a string, goes under `badKey`. -/
def argsToAttrs : List GoAny → List Attr
  | [] => []
  | [.str x] => [⟨badKey, .str x⟩]
  | .str k :: v :: rest => ⟨k, v⟩ :: argsToAttrs rest
  | .err e :: rest => ⟨badKey, .err e⟩ :: argsToAttrs rest

/-- `failureMsg` (main.go:75): `msg`, then for every attribute of the record
a space and the attribute's `String()`. -/
def failureMsg (msg : String) (args : List GoAny) : String :=
  (argsToAttrs args).foldl (fun sb a => sb ++ " " ++ a.String) msg

/-- One text occurs inside another, as a contiguous run of characters. -/
def containsText (needle hay : String) : Prop :=
  needle.data <:+: hay.data

instance (needle hay : String) : Decidable (containsText needle hay) := by
  unfold containsText; infer_instance

/-! ## Time and contexts -/

/-- A `time.Time`, in nanoseconds on the process clock. -/
abbrev Time := Int

/-- A `time.Duration`, in nanoseconds; Go allows it to be negative. -/
abbrev Duration := Int

/-- A `context.Context`, as far as `main.go` uses one: its deadline, if any. -/
structure Ctx where
  deadline : Option Time
  deriving DecidableEq, Repr

/-- The result of `context.Background()`: no deadline. -/
def Background : Ctx := ⟨none⟩

/-- `context.WithTimeout(parent, timeout)` called when the clock reads `now`:
the child's deadline is `now + timeout`, unless the parent's own deadline is
earlier, in which case the child keeps the parent's. -/
def WithTimeout (parent : Ctx) (now : Time) (timeout : Duration) : Ctx :=
  match parent.deadline with
  | some cur => if cur < now + timeout then parent else ⟨some (now + timeout)⟩
  | none => ⟨some (now + timeout)⟩

/-- Whether the context is done at time `t`: it has a deadline and `t` has
reached it. -/
def Ctx.expiredAt (c : Ctx) (t : Time) : Bool :=
  match c.deadline with
  | some d => decide (d ≤ t)
  | none => false

/-- Whether the context has a deadline that is still ahead at time `t`. -/
def Ctx.liveAt (c : Ctx) (t : Time) : Bool :=
  match c.deadline with
  | some d => decide (t < d)
  | none => false

/-! ## Configuration and URLs -/

/-- What main.go takes from `net/url`, which is not part of this repository.
`U` is `*url.URL`.
* `JoinPath`: `(*url.URL).JoinPath`, the URL with the elements joined to its
  path.  How it cleans and escapes the path, and what it returns for elements
  it cannot escape, is the library's: nothing is assumed of it, in particular
  not that different elements give different URLs. -/
structure NetURL (U : Type) where
  JoinPath : U → List String → U

/-- The `CLI` struct of main.go. -/
structure CLI (U : Type) where
  CheckUUID : String
  HealthchecksBaseURL : U
  PrometheusBaseURL : U
  Timeout : Duration
  Interval : Duration
  deriving Repr

/-! ## JSON decoding of the alerts response -/

/-- A JSON value, as the scanner of `encoding/json` delimits it; the members
of an object are in document order and may repeat a key. -/
inductive Json where
  | null
  | bool (b : Bool)
  | num (text : String)
  | str (s : String)
  | arr (elems : List Json)
  | obj (members : List (String × Json))
  deriving Repr

/-- The name `encoding/json` gives a JSON value in an `UnmarshalTypeError`. -/
def Json.kind : Json → String
  | .null => "null"
  | .bool _ => "bool"
  | .num _ => "number"
  | .str _ => "string"
  | .arr _ => "array"
  | .obj _ => "object"

/-- What main.go takes from `encoding/json` and from the `api_v1.Alert` type
of the Prometheus module, neither of which is part of this repository.  `α` is
`api_v1.Alert`; a `[]*Alert` is a `List (Option α)`, `none` being a nil pointer.
* `equalFold`: the case-insensitive comparison used to match an object key
  with a struct field when the key is not the field's exact name;
* `typeError`: the text of the `UnmarshalTypeError` for a JSON value of the
  given kind met where the given Go value is expected;
* `decodeArray`: decoding a JSON array into an existing `[]*Alert`; it either
  stops with an error, or gives the new slice and the first error it saved;
* `Marshal`: `json.Marshal` of a `[]*Alert`. -/
structure JsonLib (α : Type) where
  equalFold : String → String → Bool
  typeError : String → String → String
  decodeArray : List (Option α) → List Json → Except String (List (Option α) × Option String)
  Marshal : List (Option α) → Except String String

/-- An object key selects the struct field tagged `name`: the exact name, or
failing that a case-insensitive match. -/
def JsonLib.fieldMatch {α : Type} (lib : JsonLib α) (name key : String) : Bool :=
  key == name || lib.equalFold key name

/-- The decoder's state while it fills `resp1`: the value of
`resp1.Data.Alerts` so far and the first error saved so far. -/
abbrev DecodeState (α : Type) := List (Option α) × Option String

/-- The decoder's `saveError`: only the first error is kept. -/
def saveError {α : Type} (st : DecodeState α) (e : Option String) : DecodeState α :=
  (st.1, st.2 <|> e)

/-- Decoding a JSON object into a struct with a single field: the members are
taken in order, a member whose key selects the field is decoded into it, any
other member is skipped; an error that stops the field's decoder stops this
one. -/
def decodeMembers {α : Type} (sel : String → Bool)
    (decodeField : DecodeState α → Json → Except String (DecodeState α)) :
    DecodeState α → List (String × Json) → Except String (DecodeState α)
  | st, [] => .ok st
  | st, (k, v) :: rest =>
    if sel k then
      match decodeField st v with
      | .error e => .error e
      | .ok st1 => decodeMembers sel decodeField st1 rest
    else decodeMembers sel decodeField st rest

/-- Decoding a JSON value into the field `Alerts []*Alert`: `null` sets the
slice to nil, an array is decoded by the library, anything else is a saved
type error and leaves the slice as it was. -/
def decodeAlerts {α : Type} (lib : JsonLib α) (st : DecodeState α) : Json → Except String (DecodeState α)
  | .null => .ok ([], st.2)
  | .arr xs =>
    match lib.decodeArray st.1 xs with
    | .error e => .error e
    | .ok (v, e) => .ok (saveError (v, st.2) e)
  | j => .ok (saveError st (some (lib.typeError j.kind "[]*v1.Alert")))

/-- Decoding a JSON value into the field `Data api_v1.AlertDiscovery`, a
struct whose only field is `Alerts` with tag `alerts`: `null` changes
nothing, an object is decoded member by member, anything else is a saved type
error. -/
def decodeData {α : Type} (lib : JsonLib α) (st : DecodeState α) : Json → Except String (DecodeState α)
  | .null => .ok st
  | .obj ms => decodeMembers (lib.fieldMatch "alerts") (decodeAlerts lib) st ms
  | j => .ok (saveError st (some (lib.typeError j.kind "v1.AlertDiscovery")))

/-- Decoding a JSON value into `resp1` (main.go:137), a struct whose only
field is `Data` with tag `data`, starting from its zero value. -/
def decodeResp1 {α : Type} (lib : JsonLib α) : Json → Except String (DecodeState α)
  | .null => .ok ([], none)
  | .obj ms => decodeMembers (lib.fieldMatch "data") (decodeData lib) ([], none) ms
  | j => .ok (saveError ([], none) (some (lib.typeError j.kind "struct")))

/-! ## The outside world -/

/-- What the operations main.go performs on a response body give:
* `readAll`: `io.ReadAll`, the whole body or an error;
* `scan`: the first JSON value the decoder of `encoding/json` delimits in the
  body, or the error (read error, end of input, syntax error) that stops it;
* `scanToEnd`: whether the reads the decoder made for it reached the end of
  the body;
* `discard`: the error, if any, of `io.Copy(io.Discard, body)`;
* `close`: the error, if any, of `Close`. -/
structure Body where
  readAll : Except String String
  scan : Except String Json
  scanToEnd : Bool
  discard : Option String
  close : Option String

/-- An `*http.Response`, as far as main.go reads it. -/
structure Response where
  StatusCode : Int
  Status : String
  Body : Body

/-- What the world answers during one run of `check`: the clock readings when
the cycle context and the request context are made and when `ping` makes its
own, and the results of building and executing the two HTTP requests. -/
structure World where
  tParent : Time
  tCtx : Time
  tPing : Time
  newRequest : Option String
  doResult : Except String Response
  pingNewRequest : Option String
  pingDo : Except String Response

/-- `json.NewDecoder(resp.Body).Decode(&resp1)` (main.go:140): the alerts
left in `resp1.Data.Alerts`, or the error returned. -/
def Decode {α : Type} (lib : JsonLib α) (b : Body) : Except String (List (Option α)) :=
  match b.scan with
  | .error e => .error e
  | .ok j =>
    match decodeResp1 lib j with
    | .error e => .error e
    | .ok (_, some e) => .error e
    | .ok (alerts, none) => .ok alerts

/-! ## Effects -/

/-- The severities of `slog` that main.go uses. -/
inductive Level where
  | Info
  | Warn
  | Error
  deriving DecidableEq, Repr

/-- Whose response a body belongs to. -/
inductive Peer where
  | prometheus
  | healthchecks
  deriving DecidableEq, Repr

/-- One effect of a run, in program order.
* `log`: a call of `slog.Info`, `slog.Warn` or `slog.Error`;
* `pingCall`: `cli.ping` is entered with these arguments;
* `newRequest`: `http.NewRequestWithContext` with these arguments;
* `send`: `http.DefaultClient.Do` on the request just built;
* `readAll`, `discard`: `io.ReadAll` and `io.Copy(io.Discard, _)` on a
  response body, with whether the body was read to its end;
* `decode`: the JSON decoder reads one value from a response body, with
  whether its reads reached the end of the body;
* `close`: `Close` on a response body. -/
inductive Event (U : Type) where
  | log (level : Level) (msg : String) (args : List GoAny)
  | pingCall (ctx : Ctx) (name method : String) (url : U) (body : Option String)
  | newRequest (ctx : Ctx) (method : String) (url : U) (body : Option String)
  | send (method : String) (url : U)
  | readAll (peer : Peer) (toEnd : Bool)
  | discard (peer : Peer) (toEnd : Bool)
  | decode (peer : Peer) (toEnd : Bool)
  | close (peer : Peer)
  deriving DecidableEq, Repr

variable {U : Type}

/-- The text both callers of `io.ReadAll(resp.Body)` go on with: the body
read, or the placeholder when the read fails. -/
def readText (b : Body) : String :=
  match b.readAll with
  | .ok text => text
  | .error _ => "<read-error>"

/-- The effects of `io.ReadAll(resp.Body)` as both callers write it: a
failure is logged as a warning. -/
def readBody (peer : Peer) (warning : String) (b : Body) : List (Event U) :=
  match b.readAll with
  | .ok _ => [.readAll peer true]
  | .error err => [.readAll peer false, .log .Warn warning [.str "error", .err err]]

/-- The effects of `resp.Body.Close()` as every caller writes it: a failure is
logged as a warning. -/
def closeBody (peer : Peer) (warning : String) (b : Body) : List (Event U) :=
  match b.close with
  | none => [.close peer]
  | some err => [.close peer, .log .Warn warning [.str "error", .err err]]

/-- The effects of `io.Copy(io.Discard, resp.Body)` as `ping` writes it: a
failure is logged as a warning. -/
def discardBody (peer : Peer) (warning : String) (b : Body) : List (Event U) :=
  match b.discard with
  | none => [.discard peer true]
  | some err => [.discard peer false, .log .Warn warning [.str "error", .err err]]

/-- `CLI.ping` (main.go:27). -/
def ping (cli : CLI U) (w : World) (ctx : Ctx) (name method : String) (url : U)
    (body : Option String) : List (Event U) :=
  let ctx1 := WithTimeout ctx w.tPing cli.Timeout
  .pingCall ctx name method url body :: .newRequest ctx1 method url body ::
  match w.pingNewRequest with
  | some err => [.log .Error ("failed to create ping " ++ name ++ " request") [.str "error", .err err]]
  | none =>
    .send method url ::
    match w.pingDo with
    | .error err =>
      [.log .Error ("failed to execute ping " ++ name ++ " request") [.str "error", .err err]]
    | .ok resp =>
      if Int.tdiv resp.StatusCode 100 ≠ 2 then
        readBody .healthchecks ("failed to read ping " ++ name ++ " response body") resp.Body ++
          closeBody .healthchecks ("failed to close ping " ++ name ++ " response body") resp.Body ++
          [.log .Error ("unexpected response status code for ping " ++ name ++ " response")
            [.str "status", .str resp.Status, .str "body", .str (readText resp.Body)]]
      else
        discardBody .healthchecks ("failed to read ping " ++ name ++ " response body to EOF") resp.Body ++
        closeBody .healthchecks ("failed to close ping " ++ name ++ " response body") resp.Body

/-- `CLI.pingSuccess` (main.go:67). -/
def pingSuccess (net : NetURL U) (cli : CLI U) (w : World) (ctx : Ctx) : List (Event U) :=
  .log .Info "success" [] ::
  ping cli w ctx "success" "GET" (net.JoinPath cli.HealthchecksBaseURL [cli.CheckUUID]) none

/-- `CLI.pingFailure` (main.go:92). -/
def pingFailure (net : NetURL U) (cli : CLI U) (w : World) (ctx : Ctx) (msg : String) (args : List GoAny) : List (Event U) :=
  .log .Error msg args ::
  ping cli w ctx "failure" "POST" (net.JoinPath cli.HealthchecksBaseURL [cli.CheckUUID, "fail"])
    (some (failureMsg msg args))

/-- The `string(alerts)` passed to `pingFailure` at main.go:155: the text
`json.Marshal` gives, or the placeholder when it fails. -/
def marshalText {α : Type} (lib : JsonLib α) (alerts : List (Option α)) : String :=
  match lib.Marshal alerts with
  | .ok text => text
  | .error _ => "<marshal-error>"

/-- The effects of `json.Marshal(resp1.Data.Alerts)` at main.go:149: a failure
is logged as a warning. -/
def marshalAlerts {α : Type} (lib : JsonLib α) (alerts : List (Option α)) : List (Event U) :=
  match lib.Marshal alerts with
  | .ok _ => []
  | .error err => [.log .Warn "failed to marshal prometheus alerts" [.str "error", .err err]]

/-- `CLI.check` (main.go:102). -/
def check {α : Type} (lib : JsonLib α) (net : NetURL U) (cli : CLI U) (w : World) : List (Event U) :=
  let parent := WithTimeout Background w.tParent cli.Interval
  let ctx := WithTimeout parent w.tCtx cli.Timeout
  let url := net.JoinPath cli.PrometheusBaseURL ["api/v1/alerts"]
  .newRequest ctx "GET" url none ::
  match w.newRequest with
  | some err => pingFailure net cli w parent "failed to create prometheus request" [.str "error", .err err]
  | none =>
    .send "GET" url ::
    match w.doResult with
    | .error err => pingFailure net cli w parent "failed to execute prometheus request" [.str "error", .err err]
    | .ok resp =>
      if Int.tdiv resp.StatusCode 100 ≠ 2 then
        readBody .prometheus "failed to read prometheus response body" resp.Body ++
          closeBody .prometheus "failed to close prometheus response body" resp.Body ++
          pingFailure net cli w parent "unexpected response status code for prometheus response"
            [.str "status", .str resp.Status, .str "body", .str (readText resp.Body)]
      else
        .decode .prometheus resp.Body.scanToEnd ::
        match Decode lib resp.Body with
        | .error err =>
          pingFailure net cli w parent "failed to decode prometheus response body" [.str "error", .err err]
        | .ok alerts =>
          closeBody .prometheus "failed to close prometheus response body" resp.Body ++
          if alerts.length ≠ 0 then
            marshalAlerts lib alerts ++
              pingFailure net cli w parent "prometheus reported active alerts"
                [.str "alerts", .str (marshalText lib alerts)]
          else
            pingSuccess net cli w parent

/-! ## Observations on a run -/

/-- A call of `cli.ping`: the method, the address and the body it is given. -/
structure PingCall (U : Type) where
  name : String
  method : String
  url : U
  body : Option String
  deriving DecidableEq, Repr

/-- The calls of `cli.ping` in a run, in order. -/
def pingCalls : List (Event U) → List (PingCall U)
  | [] => []
  | .pingCall _ name method url body :: rest => ⟨name, method, url, body⟩ :: pingCalls rest
  | _ :: rest => pingCalls rest

/-- The requests handed to `http.DefaultClient.Do` in a run, in order: the
method and the address of each. -/
def sends : List (Event U) → List (String × U)
  | [] => []
  | .send method url :: rest => (method, url) :: sends rest
  | _ :: rest => sends rest

/-- The address of the success endpoint: the base joined with the check id. -/
def successURL (net : NetURL U) (cli : CLI U) : U := net.JoinPath cli.HealthchecksBaseURL [cli.CheckUUID]

/-- The address of the failure endpoint: the base joined with the check id
and `fail`. -/
def failURL (net : NetURL U) (cli : CLI U) : U := net.JoinPath cli.HealthchecksBaseURL [cli.CheckUUID, "fail"]

/-- The success ping: a GET without a body to the success endpoint. -/
def successPing (net : NetURL U) (cli : CLI U) : PingCall U :=
  ⟨"success", "GET", successURL net cli, none⟩

/-- The failure ping carrying `text`: a POST of it to the failure endpoint. -/
def failurePing (net : NetURL U) (cli : CLI U) (text : String) : PingCall U :=
  ⟨"failure", "POST", failURL net cli, some text⟩

/-- The operations of a run on the body of `peer`s response. -/
def bodyOps (peer : Peer) (evs : List (Event U)) : List (Event U) :=
  evs.filter fun e =>
    match e with
    | .readAll p _ | .discard p _ | .decode p _ | .close p => p == peer
    | _ => false

/-- The run releases the body of `peer`s response: it closes it, or one of
its reads reaches the end of the body. -/
def releasesBody (peer : Peer) (evs : List (Event U)) : Bool :=
  evs.any fun e =>
    match e with
    | .close p => p == peer
    | .readAll p toEnd | .discard p toEnd | .decode p toEnd => p == peer && toEnd
    | _ => false

/-! ## A library instance and worlds for the worked examples -/

/-- The JSON text of a string, for strings that need no escaping. -/
def quote (s : String) : String := "\"" ++ s ++ "\""

/-- The texts joined with commas. -/
def commaJoin : List String → String
  | [] => ""
  | [x] => x
  | x :: y :: rest => x ++ "," ++ commaJoin (y :: rest)

/-- The labels an alert object carries: the string members of its member
`labels`, when that is an object. -/
def labelsOf : List (String × Json) → List (String × String)
  | [] => []
  | (k, .obj ms) :: rest =>
    if k == "labels" then
      ms.filterMap (fun m => match m.2 with | .str v => some (m.1, v) | _ => none)
    else labelsOf rest
  | _ :: rest => labelsOf rest

/-- An instance of `JsonLib` on which the examples are run.  It stands in for
`encoding/json` and `api_v1.Alert` on alerts that carry labels only: an alert
is its list of labels, an array is decoded element by element into a fresh
slice (`null` to a nil pointer, an object to an alert, anything else to a
saved type error), and an alert is marshalled with its other fields empty. -/
def sampleLib : JsonLib (List (String × String)) where
  equalFold := fun a b => a.toLower == b.toLower
  typeError := fun kind target => "json: cannot unmarshal " ++ kind ++ " into Go value of type " ++ target
  decodeArray := fun _ xs =>
    .ok (xs.map (fun j => match j with | .obj ms => some (labelsOf ms) | _ => none),
         xs.findSome? (fun j => match j with
           | .obj _ => none
           | .null => none
           | j => some ("json: cannot unmarshal " ++ j.kind ++ " into Go value of type v1.Alert")))
  Marshal := fun alerts =>
    .ok ("[" ++ commaJoin (alerts.map (fun a => match a with
      | none => "null"
      | some ls => "\x7b\"labels\":\x7b" ++ commaJoin (ls.map (fun l => quote l.1 ++ ":" ++ quote l.2)) ++
          "\x7d,\"annotations\":\x7b\x7d,\"state\":\"\",\"value\":\"\"\x7d")) ++ "]")

/-- Stands in for `net/url` on the sample configurations, whose base
addresses have no path and whose elements are plain path segments: a URL is
its text, and each element is appended after a slash. -/
def sampleNet : NetURL String where
  JoinPath := fun u elem => elem.foldl (fun s e => s ++ "/" ++ e) u

/-- A configuration: the defaults of main.go, 30 s and 5 min, in seconds. -/
def sampleCLI : CLI String where
  CheckUUID := "check-id"
  HealthchecksBaseURL := "https://hc-ping.com"
  PrometheusBaseURL := "http://prometheus:9090"
  Timeout := 30
  Interval := 300

/-- A short response body holding `text`, in which the decoder finds `scan`
and which its first read takes whole. -/
def sampleBody (text : String) (scan : Except String Json) : Body where
  readAll := .ok text
  scan := scan
  scanToEnd := true
  discard := none
  close := none

/-- A world in which both requests are answered at once, the monitoring server
with `resp` and the notification service with an empty 200. -/
def sampleWorld (resp : Response) : World where
  tParent := 0
  tCtx := 0
  tPing := 1
  newRequest := none
  doResult := .ok resp
  pingNewRequest := none
  pingDo := .ok ⟨200, "200 OK", sampleBody "OK" (.error "invalid character 'O' looking for beginning of value")⟩

/-- A world in which the monitoring request fails with `err` and the failure
ping is made at time `tPing` and answered with `pingDo`. -/
def failedWorld (tCtx tPing : Time) (err : String) (pingDo : Except String Response) : World where
  tParent := 0
  tCtx := tCtx
  tPing := tPing
  newRequest := none
  doResult := .error err
  pingNewRequest := none
  pingDo := pingDo

/-- The response of the first scenario: status 200, no alerts. -/
def noAlerts : Response :=
  ⟨200, "200 OK", sampleBody "\x7b\"data\":\x7b\"alerts\":[]\x7d\x7d"
    (.ok (.obj [("data", .obj [("alerts", .arr [])])]))⟩

/-- The response of the second scenario: status 200, one alert named X. -/
def oneAlert : Response :=
  ⟨200, "200 OK", sampleBody "\x7b\"data\":\x7b\"alerts\":[\x7b\"labels\":\x7b\"alertname\":\"X\"\x7d\x7d]\x7d\x7d"
    (.ok (.obj [("data", .obj [("alerts", .arr [.obj [("labels", .obj [("alertname", .str "X")])]])])]))⟩

/-- The response of the third scenario: status 503, body `overloaded`. -/
def overloaded : Response :=
  ⟨503, "503 Service Unavailable",
    sampleBody "overloaded" (.error "invalid character 'o' looking for beginning of value")⟩

/-- A 200 response whose body is the empty JSON object. -/
def emptyObject : Response :=
  ⟨200, "200 OK", sampleBody "\x7b\x7d" (.ok (.obj []))⟩

/-- A 200 response whose body has a string where the alert list is expected. -/
def alertsString : Response :=
  ⟨200, "200 OK", sampleBody "\x7b\"data\":\x7b\"alerts\":\"x\"\x7d\x7d"
    (.ok (.obj [("data", .obj [("alerts", .str "x")])]))⟩

/-- A 200 response whose body has a number where `data` is expected. -/
def dataNumber : Response :=
  ⟨200, "200 OK", sampleBody "\x7b\"data\":5\x7d" (.ok (.obj [("data", .num "5")]))⟩

/-- A 200 response whose body is not JSON. -/
def notJson : Response :=
  ⟨200, "200 OK", sampleBody "<html>" (.error "invalid character '<' looking for beginning of value")⟩

/-- A 200 response whose body is a long HTML page, of which `readAll` shows
the first characters: the decoder stops at the first one, having read only
the beginning of the body. -/
def longPage : Response :=
  ⟨200, "200 OK",
    { readAll := .ok "<html>"
      scan := .error "invalid character '<' looking for beginning of value"
      scanToEnd := false
      discard := none
      close := none }⟩

/-- A configuration whose timeout equals its interval, in seconds. -/
def tightCLI : CLI String where
  CheckUUID := "check-id"
  HealthchecksBaseURL := "https://hc-ping.com"
  PrometheusBaseURL := "http://prometheus:9090"
  Timeout := 30
  Interval := 30

/-- The shape the specification expects of the body, in its words: an object
with a member `data` that is an object with a member `alerts` that is an
array. -/
def specExpectedShape : Json → Bool
  | .obj ms =>
    ms.any fun m => m.1 == "data" &&
      match m.2 with
      | .obj ds => ds.any fun d => d.1 == "alerts" &&
          match d.2 with
          | .arr _ => true
          | _ => false
      | _ => false
  | _ => false

/-- The arguments a caller passes for a list of key/value pairs with string
keys: each key followed by its value. -/
def pairArgs : List (String × GoAny) → List GoAny
  | [] => []
  | (k, v) :: rest => .str k :: v :: pairArgs rest

/-- The line the specification describes, in its words: the message, then
each key and its value, all separated by single spaces. -/
def specFlatLine (msg : String) (pairs : List (String × GoAny)) : String :=
  " ".intercalate (msg :: pairs.flatMap fun p => [p.1, p.2.text])

/-- The decoder has failed: it stopped with an error, or it has saved one,
which `Decode` returns at the end. -/
def decodeFailed {α : Type} : Except String (DecodeState α) → Bool
  | .error _ => true
  | .ok st => st.2.isSome

/-- The value is neither `null` nor an object: a boolean, a number, a string
or an array, which cannot be decoded into a struct. -/
def Json.notStruct : Json → Bool
  | .null => false
  | .obj _ => false
  | _ => true

/-- The value is neither `null` nor an array: a boolean, a number, a string
or an object, which cannot be decoded into a slice. -/
def Json.notSlice : Json → Bool
  | .null => false
  | .arr _ => false
  | _ => true

/-- The value is `null`. -/
def Json.isNull : Json → Bool
  | .null => true
  | _ => false

/-- A value met where `data` is expected is of the wrong kind: it is not a
struct, or it is an object in which some member selecting `alerts` is not a
slice. -/
def wrongKindData {α : Type} (lib : JsonLib α) : Json → Bool
  | .obj ds => ds.any fun d => lib.fieldMatch "alerts" d.1 && d.2.notSlice
  | j => j.notStruct

/-- The body holds a value of the wrong kind: it is not a struct, or it is an
object in which some member selecting `data` is of the wrong kind. -/
def wrongKindBody {α : Type} (lib : JsonLib α) : Json → Bool
  | .obj ms => ms.any fun m => lib.fieldMatch "data" m.1 && wrongKindData lib m.2
  | j => j.notStruct

/-- A value met where `data` is expected brings no alerts and no error: it is
`null`, or an object in which every member selecting `alerts` is `null`. -/
def blankData {α : Type} (lib : JsonLib α) : Json → Bool
  | .null => true
  | .obj ds => ds.all fun d => !lib.fieldMatch "alerts" d.1 || d.2.isNull
  | _ => false

/-- The body brings no alerts and no error: it is `null`, or an object in
which every member selecting `data` is blank; `data` or `data.alerts` may be
absent. -/
def blankBody {α : Type} (lib : JsonLib α) : Json → Bool
  | .null => true
  | .obj ms => ms.all fun m => !lib.fieldMatch "data" m.1 || blankData lib m.2
  | _ => false

/-! ## Lemmas on texts -/

theorem containsText_refl (a : String) : containsText a a :=
  List.infix_refl _

theorem containsText_trans {a b c : String} (h1 : containsText a b) (h2 : containsText b c) :
    containsText a c :=
  List.IsInfix.trans h1 h2

theorem containsText_append_right {a b : String} (c : String) (h : containsText a b) :
    containsText a (b ++ c) := by
  unfold containsText at *
  rw [String.data_append]
  exact h.trans (List.prefix_append _ _).isInfix

theorem containsText_append_left {a b : String} (c : String) (h : containsText a b) :
    containsText a (c ++ b) := by
  unfold containsText at *
  rw [String.data_append]
  exact h.trans (List.suffix_append _ _).isInfix

/-- The message `failureMsg` builds for one key and its value. -/
theorem failureMsg_one (msg k : String) (v : GoAny) :
    failureMsg msg [.str k, v] = msg ++ " " ++ (k ++ "=" ++ v.text) := by
  simp [failureMsg, argsToAttrs, Attr.String]

/-- The message `failureMsg` builds for two keys and their values. -/
theorem failureMsg_two (msg k1 k2 : String) (v1 v2 : GoAny) :
    failureMsg msg [.str k1, v1, .str k2, v2] =
      msg ++ " " ++ (k1 ++ "=" ++ v1.text) ++ " " ++ (k2 ++ "=" ++ v2.text) := by
  simp [failureMsg, argsToAttrs, Attr.String]

/-! ## Lemmas on the calls of `ping` -/

theorem pingCalls_append (xs ys : List (Event U)) :
    pingCalls (xs ++ ys) = pingCalls xs ++ pingCalls ys := by
  induction xs with
  | nil => rfl
  | cons e rest ih => cases e <;> simp [pingCalls, ih]

theorem pingCalls_readBody (peer : Peer) (warning : String) (b : Body) :
    pingCalls (readBody peer warning b : List (Event U)) = [] := by
  unfold readBody
  cases b.readAll <;> rfl

theorem pingCalls_closeBody (peer : Peer) (warning : String) (b : Body) :
    pingCalls (closeBody peer warning b : List (Event U)) = [] := by
  unfold closeBody
  cases b.close <;> rfl

theorem pingCalls_discardBody (peer : Peer) (warning : String) (b : Body) :
    pingCalls (discardBody peer warning b : List (Event U)) = [] := by
  unfold discardBody
  cases b.discard <;> rfl

theorem pingCalls_marshalAlerts {α : Type} (lib : JsonLib α) (alerts : List (Option α)) :
    pingCalls (marshalAlerts lib alerts : List (Event U)) = [] := by
  unfold marshalAlerts
  cases lib.Marshal alerts <;> rfl

theorem pingCalls_log (l : Level) (m : String) (a : List GoAny) (rest : List (Event U)) :
    pingCalls (.log l m a :: rest) = pingCalls rest := rfl

theorem pingCalls_newRequest (c : Ctx) (m : String) (u : U) (b : Option String) (rest : List (Event U)) :
    pingCalls (.newRequest c m u b :: rest) = pingCalls rest := rfl

theorem pingCalls_send (m : String) (u : U) (rest : List (Event U)) :
    pingCalls (.send m u :: rest) = pingCalls rest := rfl

theorem pingCalls_discard (p : Peer) (b : Bool) (rest : List (Event U)) :
    pingCalls (.discard p b :: rest) = pingCalls rest := rfl

theorem pingCalls_decode (p : Peer) (b : Bool) (rest : List (Event U)) :
    pingCalls (.decode p b :: rest) = pingCalls rest := rfl

theorem pingCalls_pingCall (c : Ctx) (n m : String) (u : U) (b : Option String) (rest : List (Event U)) :
    pingCalls (.pingCall c n m u b :: rest) = ⟨n, m, u, b⟩ :: pingCalls rest := rfl

theorem pingCalls_nil : pingCalls ([] : List (Event U)) = [] := rfl

/-- A run of `ping` holds one call of `ping`: its own. -/
theorem pingCalls_ping (cli : CLI U) (w : World) (ctx : Ctx) (name method : String) (url : U)
    (body : Option String) :
    pingCalls (ping cli w ctx name method url body) = [⟨name, method, url, body⟩] := by
  unfold ping
  simp only [pingCalls_pingCall, pingCalls_newRequest]
  cases w.pingNewRequest with
  | some err => simp only [pingCalls_log, pingCalls_nil]
  | none =>
    cases w.pingDo with
    | error err => simp only [pingCalls_send, pingCalls_log, pingCalls_nil]
    | ok resp =>
      by_cases hs : Int.tdiv resp.StatusCode 100 ≠ 2
      · simp only [pingCalls_send, if_pos hs, pingCalls_append, pingCalls_readBody,
          pingCalls_closeBody, pingCalls_log, pingCalls_nil, List.append_nil]
      · simp only [pingCalls_send, if_neg hs, pingCalls_append, pingCalls_closeBody,
          pingCalls_discardBody, List.append_nil]

theorem pingCalls_pingSuccess (net : NetURL U) (cli : CLI U) (w : World) (ctx : Ctx) :
    pingCalls (pingSuccess net cli w ctx) = [successPing net cli] := by
  unfold pingSuccess
  rw [pingCalls_log, pingCalls_ping]
  rfl

theorem pingCalls_pingFailure (net : NetURL U) (cli : CLI U) (w : World) (ctx : Ctx) (msg : String) (args : List GoAny) :
    pingCalls (pingFailure net cli w ctx msg args) = [failurePing net cli (failureMsg msg args)] := by
  unfold pingFailure
  rw [pingCalls_log, pingCalls_ping]
  rfl

/-- Go's `StatusCode/100 == 2`, with the quotient truncated toward zero, picks
the codes from 200 to 299. -/
theorem tdiv_hundred_eq_two (x : Int) : Int.tdiv x 100 = 2 ↔ 200 ≤ x ∧ x ≤ 299 := by
  rcases le_or_lt 0 x with h | h
  · rw [Int.tdiv_eq_ediv h (by norm_num)]; omega
  · have hneg : Int.tdiv x 100 = -(Int.tdiv (-x) 100) := by rw [Int.neg_tdiv]; simp
    rw [hneg, Int.tdiv_eq_ediv (by omega) (by norm_num)]; omega

/-- The calls of `ping` in a run of `check`, branch by branch. -/
theorem pingCalls_check {α : Type} (lib : JsonLib α) (net : NetURL U) (cli : CLI U) (w : World) :
    pingCalls (check lib net cli w) =
      match w.newRequest with
      | some err => [failurePing net cli (failureMsg "failed to create prometheus request" [.str "error", .err err])]
      | none =>
        match w.doResult with
        | .error err =>
          [failurePing net cli (failureMsg "failed to execute prometheus request" [.str "error", .err err])]
        | .ok resp =>
          if Int.tdiv resp.StatusCode 100 ≠ 2 then
            [failurePing net cli (failureMsg "unexpected response status code for prometheus response"
              [.str "status", .str resp.Status, .str "body", .str (readText resp.Body)])]
          else
            match Decode lib resp.Body with
            | .error err =>
              [failurePing net cli (failureMsg "failed to decode prometheus response body" [.str "error", .err err])]
            | .ok alerts =>
              if alerts.length ≠ 0 then
                [failurePing net cli (failureMsg "prometheus reported active alerts"
                  [.str "alerts", .str (marshalText lib alerts)])]
              else [successPing net cli] := by
  unfold check
  simp only [pingCalls_newRequest]
  cases w.newRequest with
  | some err => simp only [pingCalls_pingFailure]
  | none =>
    cases w.doResult with
    | error err => simp only [pingCalls_send, pingCalls_pingFailure]
    | ok resp =>
      by_cases hs : Int.tdiv resp.StatusCode 100 ≠ 2
      · simp only [pingCalls_send, if_pos hs, pingCalls_append, pingCalls_readBody,
          pingCalls_closeBody, pingCalls_pingFailure, List.nil_append]
      · simp only [pingCalls_send, if_neg hs, pingCalls_decode]
        cases hd : Decode lib resp.Body with
        | error err => simp only [pingCalls_pingFailure]
        | ok alerts =>
          by_cases hl : alerts.length ≠ 0
          · simp only [if_pos hl, pingCalls_append, pingCalls_closeBody,
              pingCalls_marshalAlerts, pingCalls_pingFailure, List.nil_append]
          · simp only [if_neg hl, pingCalls_append, pingCalls_closeBody,
              pingCalls_pingSuccess, List.nil_append]

/-- No operation of `ping` touches the body of the monitoring response. -/
theorem bodyOps_prometheus_ping (cli : CLI U) (w : World) (ctx : Ctx) (name method : String) (url : U)
    (body : Option String) :
    bodyOps .prometheus (ping cli w ctx name method url body) = [] := by
  unfold ping bodyOps
  cases w.pingNewRequest with
  | some err => simp
  | none =>
    cases w.pingDo with
    | error err => simp
    | ok resp =>
      by_cases hs : Int.tdiv resp.StatusCode 100 ≠ 2
      · cases hr : resp.Body.readAll <;> cases hc : resp.Body.close <;>
          simp [hs, readBody, closeBody, hr, hc]
      · cases hd : resp.Body.discard <;> cases hc : resp.Body.close <;>
          simp [hs, discardBody, closeBody, hd, hc]

/-! ## Lemmas on the requests sent -/

theorem sends_append (xs ys : List (Event U)) : sends (xs ++ ys) = sends xs ++ sends ys := by
  induction xs with
  | nil => rfl
  | cons e rest ih => cases e <;> simp [sends, ih]

theorem sends_readBody (peer : Peer) (warning : String) (b : Body) :
    sends (readBody peer warning b : List (Event U)) = [] := by
  unfold readBody
  cases b.readAll <;> rfl

theorem sends_closeBody (peer : Peer) (warning : String) (b : Body) :
    sends (closeBody peer warning b : List (Event U)) = [] := by
  unfold closeBody
  cases b.close <;> rfl

theorem sends_discardBody (peer : Peer) (warning : String) (b : Body) :
    sends (discardBody peer warning b : List (Event U)) = [] := by
  unfold discardBody
  cases b.discard <;> rfl

theorem sends_marshalAlerts {α : Type} (lib : JsonLib α) (alerts : List (Option α)) :
    sends (marshalAlerts lib alerts : List (Event U)) = [] := by
  unfold marshalAlerts
  cases lib.Marshal alerts <;> rfl

theorem sends_log (l : Level) (m : String) (a : List GoAny) (rest : List (Event U)) :
    sends (.log l m a :: rest) = sends rest := rfl

theorem sends_newRequest (c : Ctx) (m : String) (u : U) (b : Option String) (rest : List (Event U)) :
    sends (.newRequest c m u b :: rest) = sends rest := rfl

theorem sends_send (m : String) (u : U) (rest : List (Event U)) :
    sends (.send m u :: rest) = (m, u) :: sends rest := rfl

theorem sends_decode (p : Peer) (b : Bool) (rest : List (Event U)) :
    sends (.decode p b :: rest) = sends rest := rfl

theorem sends_pingCall (c : Ctx) (n m : String) (u : U) (b : Option String) (rest : List (Event U)) :
    sends (.pingCall c n m u b :: rest) = sends rest := rfl

theorem sends_nil : sends ([] : List (Event U)) = [] := rfl

/-- A run of `ping` sends its request when the request can be built, and
nothing otherwise. -/
theorem sends_ping (cli : CLI U) (w : World) (ctx : Ctx) (name method : String) (url : U)
    (body : Option String) :
    sends (ping cli w ctx name method url body) =
      if w.pingNewRequest = none then [(method, url)] else [] := by
  unfold ping
  simp only [sends_pingCall, sends_newRequest]
  cases w.pingNewRequest with
  | some err => simp only [sends_log, sends_nil, reduceCtorEq, if_false]
  | none =>
    simp only [if_true]
    cases w.pingDo with
    | error err => simp only [sends_send, sends_log, sends_nil]
    | ok resp =>
      by_cases hs : Int.tdiv resp.StatusCode 100 ≠ 2
      · simp only [sends_send, if_pos hs, sends_append, sends_readBody, sends_closeBody,
          sends_log, sends_nil, List.append_nil]
      · simp only [sends_send, if_neg hs, sends_append, sends_closeBody, sends_discardBody,
          List.append_nil]

theorem sends_pingSuccess (net : NetURL U) (cli : CLI U) (w : World) (ctx : Ctx) :
    sends (pingSuccess net cli w ctx) =
      if w.pingNewRequest = none then [("GET", successURL net cli)] else [] := by
  unfold pingSuccess
  rw [sends_log, sends_ping]
  rfl

theorem sends_pingFailure (net : NetURL U) (cli : CLI U) (w : World) (ctx : Ctx) (msg : String) (args : List GoAny) :
    sends (pingFailure net cli w ctx msg args) =
      if w.pingNewRequest = none then [("POST", failURL net cli)] else [] := by
  unfold pingFailure
  rw [sends_log, sends_ping]
  rfl

/-- The requests sent in a run of `check`: the monitoring request when it can
be built, then, when the ping's request can be built, one request per call of
`ping`, with the method and the address of the call. -/
theorem sends_check {α : Type} (lib : JsonLib α) (net : NetURL U) (cli : CLI U) (w : World) :
    sends (check lib net cli w) =
      (if w.newRequest = none then [("GET", net.JoinPath cli.PrometheusBaseURL ["api/v1/alerts"])] else []) ++
      if w.pingNewRequest = none then (pingCalls (check lib net cli w)).map fun p => (p.method, p.url)
      else [] := by
  rw [pingCalls_check]
  unfold check
  simp only [sends_newRequest]
  cases w.newRequest with
  | some err =>
    simp only [sends_pingFailure, reduceCtorEq, if_false, List.nil_append]
    split <;> rfl
  | none =>
    simp only [if_true]
    cases w.doResult with
    | error err =>
      simp only [sends_send, sends_pingFailure]
      split <;> rfl
    | ok resp =>
      by_cases hs : Int.tdiv resp.StatusCode 100 ≠ 2
      · simp only [sends_send, if_pos hs, sends_append, sends_readBody, sends_closeBody,
          sends_pingFailure, List.nil_append]
        split <;> rfl
      · simp only [sends_send, if_neg hs, sends_decode]
        cases hd : Decode lib resp.Body with
        | error err =>
          simp only [sends_pingFailure]
          split <;> rfl
        | ok alerts =>
          by_cases hl : alerts.length ≠ 0
          · simp only [if_pos hl, sends_append, sends_closeBody, sends_marshalAlerts,
              sends_pingFailure, List.nil_append]
            split <;> rfl
          · simp only [if_neg hl, sends_append, sends_closeBody, sends_pingSuccess,
              List.nil_append]
            split <;> rfl

/-! ## Lemmas on decoding, contexts and messages -/

/-- Members that do not select the field, or whose value the field's decoder
takes without changing the state, leave the decoder's state as it is. -/
theorem decodeMembers_skip {α : Type} (sel : String → Bool)
    (decodeField : DecodeState α → Json → Except String (DecodeState α)) (st : DecodeState α)
    (ms : List (String × Json)) (h : ∀ m ∈ ms, sel m.1 = true → decodeField st m.2 = .ok st) :
    decodeMembers sel decodeField st ms = .ok st := by
  induction ms with
  | nil => rfl
  | cons m rest ih =>
    obtain ⟨k, v⟩ := m
    have hrest : ∀ m ∈ rest, sel m.1 = true → decodeField st m.2 = .ok st :=
      fun m hm => h m (List.mem_cons_of_mem _ hm)
    by_cases hk : sel k = true
    · have hv : decodeField st v = .ok st := h (k, v) (List.mem_cons_self _ _) hk
      simp only [decodeMembers, hk, if_true, hv]
      exact ih hrest
    · simp only [decodeMembers, hk, if_false]
      exact ih hrest

/-- Once an error is saved, saving another keeps the decoder failed. -/
theorem isSome_saveError {α : Type} (st : DecodeState α) (e : Option String)
    (h : st.2.isSome = true ∨ e.isSome = true) : (saveError st e).2.isSome = true := by
  obtain ⟨v, s⟩ := st
  cases s <;> cases e <;> simp_all [saveError]

/-- When the field's decoder keeps a failed decoder failed, so does the
decoder of the members. -/
theorem decodeMembers_keeps {α : Type} (sel : String → Bool)
    (decodeField : DecodeState α → Json → Except String (DecodeState α))
    (hkeep : ∀ st v, st.2.isSome = true → decodeFailed (decodeField st v) = true)
    (ms : List (String × Json)) (st : DecodeState α) (hst : st.2.isSome = true) :
    decodeFailed (decodeMembers sel decodeField st ms) = true := by
  induction ms generalizing st with
  | nil => exact hst
  | cons m rest ih =>
    obtain ⟨k, v⟩ := m
    by_cases hk : sel k = true
    · have hv := hkeep st v hst
      cases hres : decodeField st v with
      | error e => simp only [decodeMembers, hk, if_true, hres, decodeFailed]
      | ok st1 =>
        rw [hres] at hv
        simp only [decodeMembers, hk, if_true, hres]
        exact ih st1 hv
    · simp only [decodeMembers, hk, if_false]
      exact ih st hst

/-- When some member selects the field and its value makes the field's
decoder fail, the decoder of the members fails. -/
theorem decodeMembers_fails {α : Type} (sel : String → Bool)
    (decodeField : DecodeState α → Json → Except String (DecodeState α))
    (hkeep : ∀ st v, st.2.isSome = true → decodeFailed (decodeField st v) = true)
    (ms : List (String × Json)) (st : DecodeState α)
    (hbad : ∃ m ∈ ms, sel m.1 = true ∧ ∀ st, decodeFailed (decodeField st m.2) = true) :
    decodeFailed (decodeMembers sel decodeField st ms) = true := by
  induction ms generalizing st with
  | nil =>
    obtain ⟨m, hm, _⟩ := hbad
    cases hm
  | cons m rest ih =>
    obtain ⟨k, v⟩ := m
    obtain ⟨b, hb, hsel, hfail⟩ := hbad
    by_cases hk : sel k = true
    · cases hres : decodeField st v with
      | error e => simp only [decodeMembers, hk, if_true, hres, decodeFailed]
      | ok st1 =>
        simp only [decodeMembers, hk, if_true, hres]
        rcases List.mem_cons.mp hb with heq | hrest
        · have hv := hfail st
          rw [heq] at hv
          simp only at hv
          rw [hres] at hv
          exact decodeMembers_keeps sel decodeField hkeep rest st1 hv
        · exact ih st1 ⟨b, hrest, hsel, hfail⟩
    · simp only [decodeMembers, hk, if_false]
      rcases List.mem_cons.mp hb with heq | hrest
      · rw [heq] at hsel
        exact absurd hsel hk
      · exact ih st ⟨b, hrest, hsel, hfail⟩

/-- The decoder of `Alerts` keeps a failed decoder failed. -/
theorem decodeAlerts_keeps {α : Type} (lib : JsonLib α) (st : DecodeState α) (v : Json)
    (hst : st.2.isSome = true) : decodeFailed (decodeAlerts lib st v) = true := by
  cases v with
  | null => exact hst
  | arr xs =>
    simp only [decodeAlerts]
    cases hres : lib.decodeArray st.1 xs with
    | error e => rfl
    | ok r =>
      obtain ⟨v, e⟩ := r
      exact isSome_saveError (v, st.2) e (Or.inl hst)
  | bool b => exact isSome_saveError st _ (Or.inl hst)
  | num t => exact isSome_saveError st _ (Or.inl hst)
  | str t => exact isSome_saveError st _ (Or.inl hst)
  | obj ms => exact isSome_saveError st _ (Or.inl hst)

/-- A value that is not a slice makes the decoder of `Alerts` fail. -/
theorem decodeAlerts_fails {α : Type} (lib : JsonLib α) (st : DecodeState α) (v : Json)
    (hv : v.notSlice = true) : decodeFailed (decodeAlerts lib st v) = true := by
  cases v with
  | null => cases hv
  | arr xs => cases hv
  | bool b => exact isSome_saveError st _ (Or.inr rfl)
  | num t => exact isSome_saveError st _ (Or.inr rfl)
  | str t => exact isSome_saveError st _ (Or.inr rfl)
  | obj ms => exact isSome_saveError st _ (Or.inr rfl)

/-- The decoder of `Data` keeps a failed decoder failed. -/
theorem decodeData_keeps {α : Type} (lib : JsonLib α) (st : DecodeState α) (v : Json)
    (hst : st.2.isSome = true) : decodeFailed (decodeData lib st v) = true := by
  cases v with
  | null => exact hst
  | obj ms => exact decodeMembers_keeps _ _ (decodeAlerts_keeps lib) ms st hst
  | bool b => exact isSome_saveError st _ (Or.inl hst)
  | num t => exact isSome_saveError st _ (Or.inl hst)
  | str t => exact isSome_saveError st _ (Or.inl hst)
  | arr xs => exact isSome_saveError st _ (Or.inl hst)

/-- A value of the wrong kind makes the decoder of `Data` fail. -/
theorem decodeData_fails {α : Type} (lib : JsonLib α) (st : DecodeState α) (v : Json)
    (hv : wrongKindData lib v = true) : decodeFailed (decodeData lib st v) = true := by
  cases v with
  | null => cases hv
  | obj ds =>
    simp only [wrongKindData, List.any_eq_true, Bool.and_eq_true] at hv
    obtain ⟨d, hd, hsel, hkind⟩ := hv
    exact decodeMembers_fails _ _ (decodeAlerts_keeps lib) ds st
      ⟨d, hd, hsel, fun st1 => decodeAlerts_fails lib st1 d.2 hkind⟩
  | bool b => exact isSome_saveError st _ (Or.inr rfl)
  | num t => exact isSome_saveError st _ (Or.inr rfl)
  | str t => exact isSome_saveError st _ (Or.inr rfl)
  | arr xs => exact isSome_saveError st _ (Or.inr rfl)

/-- A body that holds a value of the wrong kind makes the decoder of `resp1`
fail. -/
theorem decodeResp1_fails {α : Type} (lib : JsonLib α) (j : Json)
    (hj : wrongKindBody lib j = true) : decodeFailed (decodeResp1 lib j) = true := by
  cases j with
  | null => cases hj
  | obj ms =>
    simp only [wrongKindBody, List.any_eq_true, Bool.and_eq_true] at hj
    obtain ⟨m, hm, hsel, hkind⟩ := hj
    exact decodeMembers_fails _ _ (decodeData_keeps lib) ms ([], none)
      ⟨m, hm, hsel, fun st1 => decodeData_fails lib st1 m.2 hkind⟩
  | bool b => rfl
  | num t => rfl
  | str t => rfl
  | arr xs => rfl

/-- When the decoder of `resp1` fails, `Decode` returns an error. -/
theorem Decode_error_of_failed {α : Type} (lib : JsonLib α) (b : Body) (j : Json)
    (hscan : b.scan = .ok j) (hfail : decodeFailed (decodeResp1 lib j) = true) :
    ∃ e, Decode lib b = .error e := by
  cases hres : decodeResp1 lib j with
  | error e => exact ⟨e, by simp only [Decode, hscan, hres]⟩
  | ok st =>
    obtain ⟨v, s⟩ := st
    rw [hres] at hfail
    cases s with
    | none => cases hfail
    | some e => exact ⟨e, by simp only [Decode, hscan, hres]⟩

/-- A blank body decodes without error to an empty alert list. -/
theorem Decode_blank {α : Type} (lib : JsonLib α) (b : Body) (j : Json)
    (hscan : b.scan = .ok j) (hblank : blankBody lib j = true) :
    Decode lib b = .ok [] := by
  have hdata : ∀ v, blankData lib v = true → decodeData lib ([], none) v = .ok ([], none) := by
    intro v hv
    cases v with
    | null => rfl
    | obj ds =>
      simp only [blankData, List.all_eq_true, Bool.or_eq_true, Bool.not_eq_true'] at hv
      show decodeMembers (lib.fieldMatch "alerts") (decodeAlerts lib) ([], none) ds = _
      apply decodeMembers_skip
      intro d hd hsel
      rcases hv d hd with hno | hnull
      · rw [hno] at hsel
        cases hsel
      · cases hd2 : d.2 with
        | null => rfl
        | bool b => rw [hd2] at hnull; cases hnull
        | num t => rw [hd2] at hnull; cases hnull
        | str t => rw [hd2] at hnull; cases hnull
        | arr xs => rw [hd2] at hnull; cases hnull
        | obj ms => rw [hd2] at hnull; cases hnull
    | bool b => cases hv
    | num t => cases hv
    | str t => cases hv
    | arr xs => cases hv
  unfold Decode
  rw [hscan]
  cases j with
  | null => rfl
  | obj ms =>
    simp only [blankBody, List.all_eq_true, Bool.or_eq_true, Bool.not_eq_true'] at hblank
    have hskip : decodeMembers (lib.fieldMatch "data") (decodeData lib) ([], none) ms =
        .ok ([], none) := by
      apply decodeMembers_skip
      intro m hm hsel
      rcases hblank m hm with hno | hb
      · rw [hno] at hsel
        cases hsel
      · exact hdata m.2 hb
    simp only [decodeResp1, hskip]
  | bool b => cases hblank
  | num t => cases hblank
  | str t => cases hblank
  | arr xs => cases hblank

/-- The deadline `WithTimeout` gives a child of a context that has one: the
earlier of the parent's and `now + timeout`. -/
theorem WithTimeout_deadline (d : Time) (now : Time) (timeout : Duration) :
    WithTimeout ⟨some d⟩ now timeout = ⟨some (min d (now + timeout))⟩ := by
  unfold WithTimeout
  by_cases h : d < now + timeout
  · simp only [if_pos h, min_eq_left (le_of_lt h)]
  · simp only [if_neg h, min_eq_right (not_lt.mp h)]

/-- The cycle context of `check`: its deadline is the cycle's start plus the
interval. -/
theorem WithTimeout_Background (now : Time) (timeout : Duration) :
    WithTimeout Background now timeout = ⟨some (now + timeout)⟩ := rfl

/-- A run of `ping` starts by building its request under a context derived
from the one it is given. -/
theorem ping_head (cli : CLI U) (w : World) (ctx : Ctx) (name method : String) (url : U)
    (body : Option String) :
    ∃ rest, ping cli w ctx name method url body =
      [.pingCall ctx name method url body,
       .newRequest (WithTimeout ctx w.tPing cli.Timeout) method url body] ++ rest :=
  ⟨_, rfl⟩

/-- The attributes `slog` makes of key/value pairs with string keys: one per
pair, in order. -/
theorem argsToAttrs_pairArgs (pairs : List (String × GoAny)) :
    argsToAttrs (pairArgs pairs) = pairs.map fun p => ⟨p.1, p.2⟩ := by
  induction pairs with
  | nil => rfl
  | cons p rest ih =>
    obtain ⟨k, v⟩ := p
    simp only [pairArgs, argsToAttrs, List.map_cons, ih]

/-- Joining with a separator is a left fold that appends the separator and the
next item. -/
theorem intercalate_go_eq_foldl (sep acc : String) (items : List String) :
    String.intercalate.go acc sep items = items.foldl (fun sb a => sb ++ sep ++ a) acc := by
  induction items generalizing acc with
  | nil => rfl
  | cons a rest ih => simp only [String.intercalate.go, List.foldl_cons, ih]

/-! ## The claims -/

/-- C1: when the monitoring request succeeds with a 2xx status and the
decoded alert list is empty, `check` calls `ping` exactly once, as a GET
without a body to the base address joined with the check id, and never calls
the failure endpoint, the POST to the base address joined with the check id
and `fail`: no call of `ping` is that POST, whatever its body, and no request
sent in the run is a POST at all.  The requests sent are the monitoring GET
and, when the ping's request can be built, that one GET. -/
theorem check_no_alerts_pings_success {α : Type} (lib : JsonLib α) (net : NetURL U) (cli : CLI U)
    (w : World) (resp : Response) (alerts : List (Option α))
    (hreq : w.newRequest = none) (hdo : w.doResult = .ok resp)
    (hlo : 200 ≤ resp.StatusCode) (hhi : resp.StatusCode ≤ 299)
    (hdec : Decode lib resp.Body = .ok alerts) (hlen : alerts.length = 0) :
    pingCalls (check lib net cli w) =
        [⟨"success", "GET", net.JoinPath cli.HealthchecksBaseURL [cli.CheckUUID], none⟩] ∧
      (∀ text, (⟨"failure", "POST", net.JoinPath cli.HealthchecksBaseURL [cli.CheckUUID, "fail"],
          some text⟩ : PingCall U) ∉ pingCalls (check lib net cli w)) ∧
      sends (check lib net cli w) =
        ("GET", net.JoinPath cli.PrometheusBaseURL ["api/v1/alerts"]) ::
          (if w.pingNewRequest = none then
            [("GET", net.JoinPath cli.HealthchecksBaseURL [cli.CheckUUID])]
          else []) ∧
      (∀ u, ("POST", u) ∉ sends (check lib net cli w)) := by
  have hs : ¬ Int.tdiv resp.StatusCode 100 ≠ 2 := not_not.mpr ((tdiv_hundred_eq_two _).mpr ⟨hlo, hhi⟩)
  have hl : ¬ alerts.length ≠ 0 := not_not.mpr hlen
  have hcalls : pingCalls (check lib net cli w) = [successPing net cli] := by
    rw [pingCalls_check, hreq, hdo]
    simp only [if_neg hs, hdec, if_neg hl]
  have hsends : sends (check lib net cli w) =
      ("GET", net.JoinPath cli.PrometheusBaseURL ["api/v1/alerts"]) ::
        (if w.pingNewRequest = none then
          [("GET", net.JoinPath cli.HealthchecksBaseURL [cli.CheckUUID])]
        else []) := by
    rw [sends_check, hcalls, hreq]
    simp only [if_true, List.singleton_append, List.map_cons, List.map_nil]
    split <;> rfl
  refine ⟨hcalls, ?_, hsends, ?_⟩
  · intro text hmem
    rw [hcalls, List.mem_singleton] at hmem
    have hmethod : ("POST" : String) = "GET" := congrArg PingCall.method hmem
    exact absurd hmethod (by decide)
  · intro u hmem
    rw [hsends] at hmem
    rcases List.mem_cons.mp hmem with h | h
    · have hmethod : ("POST" : String) = "GET" := congrArg Prod.fst h
      exact absurd hmethod (by decide)
    · split at h
      · rw [List.mem_singleton] at h
        have hmethod : ("POST" : String) = "GET" := congrArg Prod.fst h
        exact absurd hmethod (by decide)
      · cases h

/-- C1 at the first scenario: status 200 and an empty alert list. -/
theorem check_no_alerts_pings_success_witness :
    pingCalls (check sampleLib sampleNet sampleCLI (sampleWorld noAlerts)) =
        [⟨"success", "GET", "https://hc-ping.com/check-id", none⟩] ∧
      (∀ text, (⟨"failure", "POST", "https://hc-ping.com/check-id/fail", some text⟩ : PingCall String) ∉
          pingCalls (check sampleLib sampleNet sampleCLI (sampleWorld noAlerts))) ∧
      sends (check sampleLib sampleNet sampleCLI (sampleWorld noAlerts)) =
        ("GET", "http://prometheus:9090/api/v1/alerts") ::
          (if (sampleWorld noAlerts).pingNewRequest = none then
            [("GET", "https://hc-ping.com/check-id")]
          else []) ∧
      (∀ u, ("POST", u) ∉ sends (check sampleLib sampleNet sampleCLI (sampleWorld noAlerts))) :=
  check_no_alerts_pings_success sampleLib sampleNet sampleCLI (sampleWorld noAlerts) noAlerts [] rfl rfl
    (by decide) (by decide) rfl rfl

/-- C2: when the monitoring request succeeds with a 2xx status and the
decoded alert list has at least one element, `check` calls `ping` exactly
once, as a POST to the base address joined with the check id and `fail`; it
does not call the success endpoint, the GET to the base address joined with
the check id: that GET is no call of `ping` in the run, and the one request
sent after the monitoring GET is the POST.  The body posted contains the JSON
serialization of the alert list, or `<marshal-error>` when `json.Marshal`
fails. -/
theorem check_alerts_pings_failure {α : Type} (lib : JsonLib α) (net : NetURL U) (cli : CLI U)
    (w : World) (resp : Response) (alerts : List (Option α))
    (hreq : w.newRequest = none) (hdo : w.doResult = .ok resp)
    (hlo : 200 ≤ resp.StatusCode) (hhi : resp.StatusCode ≤ 299)
    (hdec : Decode lib resp.Body = .ok alerts) (hlen : 1 ≤ alerts.length) :
    ∃ text,
      pingCalls (check lib net cli w) =
        [⟨"failure", "POST", net.JoinPath cli.HealthchecksBaseURL [cli.CheckUUID, "fail"], some text⟩] ∧
      (⟨"success", "GET", net.JoinPath cli.HealthchecksBaseURL [cli.CheckUUID], none⟩ : PingCall U) ∉
        pingCalls (check lib net cli w) ∧
      (∀ p ∈ pingCalls (check lib net cli w), p.method = "POST") ∧
      (∀ ser, lib.Marshal alerts = .ok ser → containsText ser text) ∧
      (∀ e, lib.Marshal alerts = .error e → containsText "<marshal-error>" text) ∧
      sends (check lib net cli w) =
        ("GET", net.JoinPath cli.PrometheusBaseURL ["api/v1/alerts"]) ::
          if w.pingNewRequest = none then
            [("POST", net.JoinPath cli.HealthchecksBaseURL [cli.CheckUUID, "fail"])]
          else [] := by
  have hs : ¬ Int.tdiv resp.StatusCode 100 ≠ 2 := not_not.mpr ((tdiv_hundred_eq_two _).mpr ⟨hlo, hhi⟩)
  have hl : alerts.length ≠ 0 := by omega
  have hcalls : pingCalls (check lib net cli w) =
      [failurePing net cli (failureMsg "prometheus reported active alerts"
        [.str "alerts", .str (marshalText lib alerts)])] := by
    rw [pingCalls_check, hreq, hdo]
    simp only [if_neg hs, hdec, if_pos hl]
  refine ⟨_, hcalls, ?_, ?_, ?_, ?_, ?_⟩
  · intro hmem
    rw [hcalls, List.mem_singleton] at hmem
    have hmethod : ("GET" : String) = "POST" := congrArg PingCall.method hmem
    exact absurd hmethod (by decide)
  · intro p hp
    rw [hcalls, List.mem_singleton] at hp
    rw [hp]
    rfl
  · intro ser hser
    rw [failureMsg_one]
    simp only [marshalText, hser, GoAny.text]
    exact containsText_append_left _ (containsText_append_left _ (containsText_refl _))
  · intro e he
    rw [failureMsg_one]
    simp only [marshalText, he, GoAny.text]
    exact containsText_append_left _ (containsText_append_left _ (containsText_refl _))
  · rw [sends_check, hcalls, hreq]
    simp only [if_true, List.singleton_append, List.map_cons, List.map_nil]
    split <;> rfl

/-- C2 at the second scenario: status 200 and one alert. -/
theorem check_alerts_pings_failure_witness :
    ∃ text,
      pingCalls (check sampleLib sampleNet sampleCLI (sampleWorld oneAlert)) =
        [⟨"failure", "POST", "https://hc-ping.com/check-id/fail", some text⟩] ∧
      (⟨"success", "GET", "https://hc-ping.com/check-id", none⟩ : PingCall String) ∉
        pingCalls (check sampleLib sampleNet sampleCLI (sampleWorld oneAlert)) ∧
      (∀ p ∈ pingCalls (check sampleLib sampleNet sampleCLI (sampleWorld oneAlert)), p.method = "POST") ∧
      (∀ ser, sampleLib.Marshal [some [("alertname", "X")]] = .ok ser → containsText ser text) ∧
      (∀ e, sampleLib.Marshal [some [("alertname", "X")]] = .error e →
        containsText "<marshal-error>" text) ∧
      sends (check sampleLib sampleNet sampleCLI (sampleWorld oneAlert)) =
        ("GET", "http://prometheus:9090/api/v1/alerts") ::
          if (sampleWorld oneAlert).pingNewRequest = none then
            [("POST", "https://hc-ping.com/check-id/fail")]
          else [] :=
  check_alerts_pings_failure sampleLib sampleNet sampleCLI (sampleWorld oneAlert) oneAlert
    [some [("alertname", "X")]] rfl rfl (by decide) (by decide) rfl (by decide)

/-- C3: when the monitoring response has a status code outside 200..299,
`check` calls `ping` exactly once, as a POST to the failure endpoint, and the
body posted contains the text `unexpected response status code`, the status
of the response, and the whole response body, or `<read-error>` when the body
cannot be read.  So for a status 503, whose status text holds `503`, and the
body `overloaded`, it contains `unexpected response status code`, `503` and
`overloaded`. -/
theorem check_bad_status_pings_failure {α : Type} (lib : JsonLib α) (net : NetURL U) (cli : CLI U) (w : World)
    (resp : Response)
    (hreq : w.newRequest = none) (hdo : w.doResult = .ok resp)
    (hstatus : ¬ (200 ≤ resp.StatusCode ∧ resp.StatusCode ≤ 299)) :
    ∃ text,
      pingCalls (check lib net cli w) =
        [⟨"failure", "POST", net.JoinPath cli.HealthchecksBaseURL [cli.CheckUUID, "fail"], some text⟩] ∧
      containsText "unexpected response status code" text ∧
      containsText resp.Status text ∧
      (∀ b, resp.Body.readAll = .ok b → containsText b text) ∧
      (∀ e, resp.Body.readAll = .error e → containsText "<read-error>" text) ∧
      (resp.StatusCode = 503 → containsText "503" resp.Status →
        resp.Body.readAll = .ok "overloaded" →
        containsText "unexpected response status code" text ∧ containsText "503" text ∧
          containsText "overloaded" text) := by
  have hs : Int.tdiv resp.StatusCode 100 ≠ 2 := fun h => hstatus ((tdiv_hundred_eq_two _).mp h)
  have hcalls : pingCalls (check lib net cli w) =
      [failurePing net cli (failureMsg "unexpected response status code for prometheus response"
        [.str "status", .str resp.Status, .str "body", .str (readText resp.Body)])] := by
    rw [pingCalls_check, hreq, hdo]
    simp only [if_pos hs]
  have hmsg : containsText "unexpected response status code"
      "unexpected response status code for prometheus response" := by decide
  have h1 : containsText "unexpected response status code"
      (failureMsg "unexpected response status code for prometheus response"
        [.str "status", .str resp.Status, .str "body", .str (readText resp.Body)]) := by
    rw [failureMsg_two]
    exact containsText_append_right _ (containsText_append_right _
      (containsText_append_right _ (containsText_append_right _ hmsg)))
  have h2 : containsText resp.Status
      (failureMsg "unexpected response status code for prometheus response"
        [.str "status", .str resp.Status, .str "body", .str (readText resp.Body)]) := by
    rw [failureMsg_two]
    exact containsText_append_right _ (containsText_append_right _
      (containsText_append_left _ (containsText_append_left _ (containsText_refl _))))
  have h3 : containsText (readText resp.Body)
      (failureMsg "unexpected response status code for prometheus response"
        [.str "status", .str resp.Status, .str "body", .str (readText resp.Body)]) := by
    rw [failureMsg_two]
    exact containsText_append_left _ (containsText_append_left _ (containsText_refl _))
  refine ⟨_, hcalls, h1, h2, ?_, ?_, ?_⟩
  · intro b hb
    have hr : readText resp.Body = b := by
      simp only [readText, hb]
    rw [← hr]
    exact h3
  · intro e he
    have hr : readText resp.Body = "<read-error>" := by
      simp only [readText, he]
    rw [← hr]
    exact h3
  · intro _ hcode hb
    have hr : readText resp.Body = "overloaded" := by
      simp only [readText, hb]
    refine ⟨h1, containsText_trans hcode h2, ?_⟩
    rw [← hr]
    exact h3

/-- C3 at the third scenario: status 503 with the body `overloaded`. -/
theorem check_bad_status_pings_failure_witness :
    ∃ text,
      pingCalls (check sampleLib sampleNet sampleCLI (sampleWorld overloaded)) =
        [⟨"failure", "POST", "https://hc-ping.com/check-id/fail", some text⟩] ∧
      containsText "unexpected response status code" text ∧
      containsText "503 Service Unavailable" text ∧
      (∀ b, overloaded.Body.readAll = .ok b → containsText b text) ∧
      (∀ e, overloaded.Body.readAll = .error e → containsText "<read-error>" text) ∧
      ((503 : Int) = 503 → containsText "503" "503 Service Unavailable" →
        overloaded.Body.readAll = .ok "overloaded" →
        containsText "unexpected response status code" text ∧ containsText "503" text ∧
          containsText "overloaded" text) :=
  check_bad_status_pings_failure sampleLib sampleNet sampleCLI (sampleWorld overloaded) overloaded rfl rfl
    (by decide)

/-- C4: when `http.DefaultClient.Do` returns an error for the monitoring
request, `check` does nothing more than log the failure and call `ping`
once, as a POST to the failure endpoint whose body is the message followed by
the field `error=` and the text of the error; it performs no operation on a
response body and never calls the success endpoint, the GET to the base
address joined with the check id: that GET is no call of `ping` in the run,
and the one request sent after the monitoring GET is the POST. -/
theorem check_transport_error_pings_failure {α : Type} (lib : JsonLib α) (net : NetURL U)
    (cli : CLI U) (w : World) (e : String)
    (hreq : w.newRequest = none) (hdo : w.doResult = .error e) :
    check lib net cli w =
        .newRequest (WithTimeout (WithTimeout Background w.tParent cli.Interval) w.tCtx cli.Timeout)
            "GET" (net.JoinPath cli.PrometheusBaseURL ["api/v1/alerts"]) none ::
          .send "GET" (net.JoinPath cli.PrometheusBaseURL ["api/v1/alerts"]) ::
          pingFailure net cli w (WithTimeout Background w.tParent cli.Interval)
            "failed to execute prometheus request" [.str "error", .err e] ∧
      pingCalls (check lib net cli w) =
        [⟨"failure", "POST", net.JoinPath cli.HealthchecksBaseURL [cli.CheckUUID, "fail"],
          some ("failed to execute prometheus request error=" ++ e)⟩] ∧
      containsText ("error=" ++ e) ("failed to execute prometheus request error=" ++ e) ∧
      bodyOps .prometheus (check lib net cli w) = [] ∧
      (⟨"success", "GET", net.JoinPath cli.HealthchecksBaseURL [cli.CheckUUID], none⟩ : PingCall U) ∉
        pingCalls (check lib net cli w) ∧
      (∀ p ∈ pingCalls (check lib net cli w), p.method = "POST") ∧
      sends (check lib net cli w) =
        ("GET", net.JoinPath cli.PrometheusBaseURL ["api/v1/alerts"]) ::
          if w.pingNewRequest = none then
            [("POST", net.JoinPath cli.HealthchecksBaseURL [cli.CheckUUID, "fail"])]
          else [] := by
  have htrace : check lib net cli w =
      .newRequest (WithTimeout (WithTimeout Background w.tParent cli.Interval) w.tCtx cli.Timeout)
          "GET" (net.JoinPath cli.PrometheusBaseURL ["api/v1/alerts"]) none ::
        .send "GET" (net.JoinPath cli.PrometheusBaseURL ["api/v1/alerts"]) ::
        pingFailure net cli w (WithTimeout Background w.tParent cli.Interval)
          "failed to execute prometheus request" [.str "error", .err e] := by
    unfold check
    simp only [hreq, hdo]
  have hbody : failureMsg "failed to execute prometheus request" [.str "error", .err e] =
      "failed to execute prometheus request error=" ++ e := by
    rw [failureMsg_one, GoAny.text, ← String.append_assoc, ← String.append_assoc]
    rfl
  have hcalls : pingCalls (check lib net cli w) =
      [failurePing net cli ("failed to execute prometheus request error=" ++ e)] := by
    rw [pingCalls_check, hreq, hdo]
    simp only [hbody]
  refine ⟨htrace, hcalls, ?_, ?_, ?_, ?_, ?_⟩
  · have hsplit : "failed to execute prometheus request error=" ++ e =
        "failed to execute prometheus request " ++ ("error=" ++ e) := by
      rw [← String.append_assoc]
      rfl
    rw [hsplit]
    exact containsText_append_left _ (containsText_refl _)
  · rw [htrace]
    unfold pingFailure
    have hp := bodyOps_prometheus_ping cli w (WithTimeout Background w.tParent cli.Interval)
      "failure" "POST" (net.JoinPath cli.HealthchecksBaseURL [cli.CheckUUID, "fail"])
      (some (failureMsg "failed to execute prometheus request" [.str "error", .err e]))
    unfold bodyOps at hp ⊢
    simp only [List.filter_cons] at hp ⊢
    simpa using hp
  · intro hmem
    rw [hcalls, List.mem_singleton] at hmem
    have hmethod : ("GET" : String) = "POST" := congrArg PingCall.method hmem
    exact absurd hmethod (by decide)
  · intro p hp
    rw [hcalls, List.mem_singleton] at hp
    rw [hp]
    rfl
  · rw [sends_check, hcalls, hreq]
    simp only [if_true, List.singleton_append, List.map_cons, List.map_nil]
    split <;> rfl

/-- C4 for a connection that is refused. -/
theorem check_transport_error_pings_failure_witness :
    pingCalls (check sampleLib sampleNet sampleCLI
        (failedWorld 0 1 "dial tcp: connection refused" (.error "dial tcp: connection refused"))) =
      [⟨"failure", "POST", "https://hc-ping.com/check-id/fail",
        some "failed to execute prometheus request error=dial tcp: connection refused"⟩] :=
  (check_transport_error_pings_failure sampleLib sampleNet sampleCLI
    (failedWorld 0 1 "dial tcp: connection refused" (.error "dial tcp: connection refused"))
    "dial tcp: connection refused" rfl rfl).2.1

/-- C5, as the specification words it, fails: a 200 response whose body is
the empty JSON object lacks the expected shape, yet `Decode` returns no
error and an empty alert list, and `check` calls `ping` once, for the success
endpoint. -/
theorem check_empty_object_pings_success :
    emptyObject.StatusCode = 200 ∧
      emptyObject.Body.scan = .ok (.obj []) ∧
      specExpectedShape (.obj []) = false ∧
      Decode sampleLib emptyObject.Body = .ok [] ∧
      pingCalls (check sampleLib sampleNet sampleCLI (sampleWorld emptyObject)) =
        [⟨"success", "GET", "https://hc-ping.com/check-id", none⟩] :=
  ⟨rfl, rfl, rfl, rfl, by decide⟩

/-- C5, amended: when the monitoring response has a 2xx status and `Decode`
returns an error, `check` calls `ping` exactly once, as a POST to the failure
endpoint whose body is the decode-failure message followed by the field
`error=` and the text of the error, and the success ping is not called.
`Decode` returns an error when the body is not JSON, and whenever the body
holds a value of the wrong kind: when it is a JSON boolean, number, string or
array, when a member selecting `data` is one of these, and when a member
selecting `alerts` inside it is a boolean, number, string or object.  It
returns none, and the ping is the success ping, when the body is blank:
`null`, or an object in which `data` or `data.alerts` is absent or `null`;
the empty object is one. -/
theorem check_decode_error_pings_failure {α : Type} (lib : JsonLib α) (net : NetURL U) (cli : CLI U)
    (w : World) (resp : Response)
    (hreq : w.newRequest = none) (hdo : w.doResult = .ok resp)
    (hlo : 200 ≤ resp.StatusCode) (hhi : resp.StatusCode ≤ 299) :
    (∀ e, Decode lib resp.Body = .error e →
      pingCalls (check lib net cli w) =
        [⟨"failure", "POST", net.JoinPath cli.HealthchecksBaseURL [cli.CheckUUID, "fail"],
          some ("failed to decode prometheus response body error=" ++ e)⟩] ∧
      (⟨"success", "GET", net.JoinPath cli.HealthchecksBaseURL [cli.CheckUUID], none⟩ : PingCall U) ∉
        pingCalls (check lib net cli w)) ∧
    (∀ e, resp.Body.scan = .error e → Decode lib resp.Body = .error e) ∧
    (∀ j, resp.Body.scan = .ok j → j ≠ .null → (∀ ms, j ≠ .obj ms) →
      Decode lib resp.Body = .error (lib.typeError j.kind "struct")) ∧
    (∀ j, resp.Body.scan = .ok j → wrongKindBody lib j = true →
      ∃ e, Decode lib resp.Body = .error e ∧
        pingCalls (check lib net cli w) =
          [⟨"failure", "POST", net.JoinPath cli.HealthchecksBaseURL [cli.CheckUUID, "fail"],
            some ("failed to decode prometheus response body error=" ++ e)⟩]) ∧
    (∀ j, resp.Body.scan = .ok j → blankBody lib j = true →
      Decode lib resp.Body = .ok [] ∧
        pingCalls (check lib net cli w) =
          [⟨"success", "GET", net.JoinPath cli.HealthchecksBaseURL [cli.CheckUUID], none⟩]) := by
  have hs : ¬ Int.tdiv resp.StatusCode 100 ≠ 2 := not_not.mpr ((tdiv_hundred_eq_two _).mpr ⟨hlo, hhi⟩)
  have hfailure : ∀ e, Decode lib resp.Body = .error e →
      pingCalls (check lib net cli w) =
        [failurePing net cli ("failed to decode prometheus response body error=" ++ e)] := by
    intro e hdec
    have hbody : failureMsg "failed to decode prometheus response body" [.str "error", .err e] =
        "failed to decode prometheus response body error=" ++ e := by
      rw [failureMsg_one, GoAny.text, ← String.append_assoc, ← String.append_assoc]
      rfl
    rw [pingCalls_check, hreq, hdo]
    simp only [if_neg hs, hdec, hbody]
  refine ⟨?_, ?_, ?_, ?_, ?_⟩
  · intro e hdec
    refine ⟨hfailure e hdec, ?_⟩
    intro hmem
    rw [hfailure e hdec, List.mem_singleton] at hmem
    have hmethod : ("GET" : String) = "POST" := congrArg PingCall.method hmem
    exact absurd hmethod (by decide)
  · intro e he
    simp only [Decode, he]
  · intro j hj hnull hobj
    cases j with
    | null => exact absurd rfl hnull
    | obj ms => exact absurd rfl (hobj ms)
    | bool b => simp only [Decode, hj, decodeResp1, saveError, Json.kind]; rfl
    | num t => simp only [Decode, hj, decodeResp1, saveError, Json.kind]; rfl
    | str t => simp only [Decode, hj, decodeResp1, saveError, Json.kind]; rfl
    | arr xs => simp only [Decode, hj, decodeResp1, saveError, Json.kind]; rfl
  · intro j hj hkind
    obtain ⟨e, he⟩ := Decode_error_of_failed lib resp.Body j hj (decodeResp1_fails lib j hkind)
    exact ⟨e, he, hfailure e he⟩
  · intro j hj hblank
    have hdec : Decode lib resp.Body = .ok [] := Decode_blank lib resp.Body j hj hblank
    refine ⟨hdec, ?_⟩
    rw [pingCalls_check, hreq, hdo]
    simp only [if_neg hs, hdec, List.length_nil, ne_eq, not_true_eq_false, if_false]
    rfl

/-- C5, amended, at three 200 responses: one whose body is an HTML page, one
with a string where the alert list is expected and one with a number where
`data` is expected. -/
theorem check_decode_error_pings_failure_witness :
    pingCalls (check sampleLib sampleNet sampleCLI (sampleWorld notJson)) =
        [⟨"failure", "POST", "https://hc-ping.com/check-id/fail",
          some "failed to decode prometheus response body error=invalid character '<' looking for beginning of value"⟩] ∧
      (∃ e, Decode sampleLib alertsString.Body = .error e ∧
        pingCalls (check sampleLib sampleNet sampleCLI (sampleWorld alertsString)) =
          [⟨"failure", "POST", "https://hc-ping.com/check-id/fail",
            some ("failed to decode prometheus response body error=" ++ e)⟩]) ∧
      (∃ e, Decode sampleLib dataNumber.Body = .error e ∧
        pingCalls (check sampleLib sampleNet sampleCLI (sampleWorld dataNumber)) =
          [⟨"failure", "POST", "https://hc-ping.com/check-id/fail",
            some ("failed to decode prometheus response body error=" ++ e)⟩]) :=
  ⟨((check_decode_error_pings_failure sampleLib sampleNet sampleCLI (sampleWorld notJson) notJson
      rfl rfl (by decide) (by decide)).1 "invalid character '<' looking for beginning of value" rfl).1,
    (check_decode_error_pings_failure sampleLib sampleNet sampleCLI (sampleWorld alertsString)
      alertsString rfl rfl (by decide) (by decide)).2.2.2.1 _ rfl rfl,
    (check_decode_error_pings_failure sampleLib sampleNet sampleCLI (sampleWorld dataNumber)
      dataNumber rfl rfl (by decide) (by decide)).2.2.2.1 _ rfl rfl⟩

/-- C6, as the specification words it, fails when the timeout equals the
interval: with both at 30 s, the cycle context made at 0 s and the request
context at 1 s, the request context expires with the cycle context at 30 s;
the failure ping made at 31 s gets a request context whose deadline is the
cycle's, 30 s, which has already passed. -/
theorem check_ping_deadline_passed :
    tightCLI.Timeout ≤ tightCLI.Interval ∧
      (WithTimeout (WithTimeout Background 0 tightCLI.Interval) 1 tightCLI.Timeout).expiredAt 30 = true ∧
      (check sampleLib sampleNet tightCLI
          (failedWorld 1 31 "context deadline exceeded" (.error "context deadline exceeded"))).take 5 =
        [.newRequest ⟨some 30⟩ "GET" "http://prometheus:9090/api/v1/alerts" none,
         .send "GET" "http://prometheus:9090/api/v1/alerts",
         .log .Error "failed to execute prometheus request"
           [.str "error", .err "context deadline exceeded"],
         .pingCall ⟨some 30⟩ "failure" "POST" "https://hc-ping.com/check-id/fail"
           (some "failed to execute prometheus request error=context deadline exceeded"),
         .newRequest ⟨some 30⟩ "POST" "https://hc-ping.com/check-id/fail"
           (some "failed to execute prometheus request error=context deadline exceeded")] ∧
      (⟨some 30⟩ : Ctx).expiredAt 31 = true ∧ (⟨some 30⟩ : Ctx).liveAt 31 = false := by
  decide

/-- C6, amended: when the monitoring request is aborted because it reached
its request deadline, and the failure ping is made before the cycle deadline
(cycle start plus interval) with a timeout above zero, `check` logs the
transport failure and calls `ping` with the cycle context; the request of the
ping is built under a fresh context whose deadline is the earlier of cycle
start plus interval and ping start plus timeout, and that deadline is still
ahead when the ping is made.  This needs the timeout to be strictly below the
interval. -/
theorem check_deadline_abort_ping_live {α : Type} (lib : JsonLib α) (net : NetURL U) (cli : CLI U) (w : World)
    (e : String)
    (hreq : w.newRequest = none) (hdo : w.doResult = .error e)
    (hclock : w.tParent ≤ w.tCtx)
    (habort : (WithTimeout (WithTimeout Background w.tParent cli.Interval) w.tCtx
      cli.Timeout).expiredAt w.tPing = true)
    (hpos : 0 < cli.Timeout)
    (hbefore : w.tPing < w.tParent + cli.Interval) :
    cli.Timeout < cli.Interval ∧
      (∃ rest, check lib net cli w =
        [.newRequest ⟨some (min (w.tParent + cli.Interval) (w.tCtx + cli.Timeout))⟩ "GET"
           (net.JoinPath cli.PrometheusBaseURL ["api/v1/alerts"]) none,
         .send "GET" (net.JoinPath cli.PrometheusBaseURL ["api/v1/alerts"]),
         .log .Error "failed to execute prometheus request" [.str "error", .err e],
         .pingCall ⟨some (w.tParent + cli.Interval)⟩ "failure" "POST"
           (net.JoinPath cli.HealthchecksBaseURL [cli.CheckUUID, "fail"])
           (some (failureMsg "failed to execute prometheus request" [.str "error", .err e])),
         .newRequest ⟨some (min (w.tParent + cli.Interval) (w.tPing + cli.Timeout))⟩ "POST"
           (net.JoinPath cli.HealthchecksBaseURL [cli.CheckUUID, "fail"])
           (some (failureMsg "failed to execute prometheus request" [.str "error", .err e]))] ++ rest) ∧
      (⟨some (min (w.tParent + cli.Interval) (w.tPing + cli.Timeout))⟩ : Ctx).liveAt w.tPing =
        true := by
  have hlive : w.tPing < min (w.tParent + cli.Interval) (w.tPing + cli.Timeout) :=
    lt_min hbefore (by linarith)
  refine ⟨?_, ?_, decide_eq_true hlive⟩
  · rw [WithTimeout_Background, WithTimeout_deadline] at habort
    have hle : min (w.tParent + cli.Interval) (w.tCtx + cli.Timeout) ≤ w.tPing :=
      of_decide_eq_true habort
    rcases min_le_iff.mp hle with h | h
    · linarith
    · linarith
  · obtain ⟨rest, hrest⟩ := ping_head cli w ⟨some (w.tParent + cli.Interval)⟩ "failure" "POST"
      (net.JoinPath cli.HealthchecksBaseURL [cli.CheckUUID, "fail"])
      (some (failureMsg "failed to execute prometheus request" [.str "error", .err e]))
    refine ⟨rest, ?_⟩
    unfold check
    simp only [hreq, hdo, pingFailure, WithTimeout_Background, WithTimeout_deadline] at hrest ⊢
    rw [hrest]
    rfl

/-- C6, amended, with the defaults of main.go: timeout 30 s, interval 5 min,
the request aborted at 30 s and the ping made at once. -/
theorem check_deadline_abort_ping_live_witness :
    (WithTimeout (WithTimeout Background 0 sampleCLI.Interval) 0 sampleCLI.Timeout).expiredAt 30 =
        true ∧
      (⟨some (min (0 + sampleCLI.Interval) (30 + sampleCLI.Timeout))⟩ : Ctx).liveAt 30 = true :=
  ⟨by decide,
   (check_deadline_abort_ping_live sampleLib sampleNet sampleCLI
    (failedWorld 0 30 "context deadline exceeded" (.ok ⟨200, "200 OK", sampleBody "OK" (.error "EOF")⟩))
    "context deadline exceeded" rfl rfl (le_refl _) (by decide) (by decide) (by decide)).2.2⟩

/-- C7 fails on the decode-error path of `check`: for a 200 response whose
body is a long HTML page, the only operation on the body is the decoder's
read, which stops before the end, and the body is never closed; on the
sibling paths (a 503 response, a 200 response without alerts) the body is
released, as is the body of the ping's response. -/
theorem check_decode_error_leaves_body :
    bodyOps .prometheus (check sampleLib sampleNet sampleCLI (sampleWorld longPage)) =
        [.decode .prometheus false] ∧
      releasesBody .prometheus (check sampleLib sampleNet sampleCLI (sampleWorld longPage)) = false ∧
      releasesBody .prometheus (check sampleLib sampleNet sampleCLI (sampleWorld overloaded)) = true ∧
      releasesBody .prometheus (check sampleLib sampleNet sampleCLI (sampleWorld noAlerts)) = true ∧
      releasesBody .healthchecks (check sampleLib sampleNet sampleCLI (sampleWorld longPage)) = true := by
  decide

/-- C8, as the specification words it, fails: for the message `m` and the
pair `k`, `v` the body is `m k=v`, not `m k v`. -/
theorem failureMsg_not_space_separated :
    failureMsg "m" (pairArgs [("k", .str "v")]) = "m k=v" ∧
      specFlatLine "m" [("k", .str "v")] = "m k v" ∧
      failureMsg "m" (pairArgs [("k", .str "v")]) ≠ specFlatLine "m" [("k", .str "v")] := by
  decide

/-- C8, amended: for every message and every list of key/value pairs with
string keys, the body `pingFailure` sends is one line made of the message and
then, for each pair in the order given, the item `key=value`, these joined by
single spaces; with no pairs it is exactly the message.  `pingFailure` hands
it to `ping` as the body of a POST to the base address joined with the check
id and `fail`. -/
theorem failureMsg_key_value_line (net : NetURL U) (cli : CLI U) (w : World) (ctx : Ctx) (msg : String)
    (pairs : List (String × GoAny)) :
    failureMsg msg (pairArgs pairs) =
        " ".intercalate (msg :: pairs.map fun p => p.1 ++ "=" ++ p.2.text) ∧
      failureMsg msg (pairArgs []) = msg ∧
      pingCalls (pingFailure net cli w ctx msg (pairArgs pairs)) =
        [⟨"failure", "POST", net.JoinPath cli.HealthchecksBaseURL [cli.CheckUUID, "fail"],
          some (failureMsg msg (pairArgs pairs))⟩] := by
  refine ⟨?_, rfl, pingCalls_pingFailure net cli w ctx msg (pairArgs pairs)⟩
  unfold failureMsg
  rw [argsToAttrs_pairArgs, String.intercalate, intercalate_go_eq_foldl, List.foldl_map, List.foldl_map]
  rfl

/-- C9, as the specification words it, fails: at the second scenario (status
200, one alert named X) the body posted to the failure endpoint does not
contain the text `active alerts reported`. -/
theorem check_alerts_body_lacks_spec_text :
    oneAlert.StatusCode = 200 ∧
      Decode sampleLib oneAlert.Body = .ok [some [("alertname", "X")]] ∧
      pingCalls (check sampleLib sampleNet sampleCLI (sampleWorld oneAlert)) =
        [⟨"failure", "POST", "https://hc-ping.com/check-id/fail",
          some "prometheus reported active alerts alerts=[\x7b\"labels\":\x7b\"alertname\":\"X\"\x7d,\"annotations\":\x7b\x7d,\"state\":\"\",\"value\":\"\"\x7d]"⟩] ∧
      ¬ containsText "active alerts reported"
        "prometheus reported active alerts alerts=[\x7b\"labels\":\x7b\"alertname\":\"X\"\x7d,\"annotations\":\x7b\x7d,\"state\":\"\",\"value\":\"\"\x7d]" := by
  refine ⟨rfl, rfl, by decide, by decide⟩

/-- C9, amended: when the monitoring request succeeds with a 2xx status and a
non-empty alert list, the body of the POST to the failure endpoint is the
text `prometheus reported active alerts`, a space, and the field `alerts=`
with the serialized form of the alert list (`<marshal-error>` when
`json.Marshal` fails); so it contains the literal text
`prometheus reported active alerts` and the serialized form. -/
theorem check_alerts_body_text {α : Type} (lib : JsonLib α) (net : NetURL U) (cli : CLI U) (w : World)
    (resp : Response) (alerts : List (Option α))
    (hreq : w.newRequest = none) (hdo : w.doResult = .ok resp)
    (hlo : 200 ≤ resp.StatusCode) (hhi : resp.StatusCode ≤ 299)
    (hdec : Decode lib resp.Body = .ok alerts) (hne : alerts ≠ []) :
    pingCalls (check lib net cli w) =
        [⟨"failure", "POST", net.JoinPath cli.HealthchecksBaseURL [cli.CheckUUID, "fail"],
          some ("prometheus reported active alerts alerts=" ++ (marshalText lib alerts))⟩] ∧
      containsText "prometheus reported active alerts"
        ("prometheus reported active alerts alerts=" ++ (marshalText lib alerts)) ∧
      containsText (marshalText lib alerts)
        ("prometheus reported active alerts alerts=" ++ (marshalText lib alerts)) ∧
      (∀ ser, lib.Marshal alerts = .ok ser → (marshalText lib alerts) = ser) ∧
      (∀ e, lib.Marshal alerts = .error e → (marshalText lib alerts) = "<marshal-error>") := by
  have hs : ¬ Int.tdiv resp.StatusCode 100 ≠ 2 := not_not.mpr ((tdiv_hundred_eq_two _).mpr ⟨hlo, hhi⟩)
  have hl : alerts.length ≠ 0 := fun h => hne (List.length_eq_zero.mp h)
  have hbody : failureMsg "prometheus reported active alerts"
        [.str "alerts", .str (marshalText lib alerts)] =
      "prometheus reported active alerts alerts=" ++ (marshalText lib alerts) := by
    rw [failureMsg_one, GoAny.text, ← String.append_assoc, ← String.append_assoc]
    rfl
  refine ⟨?_, ?_, ?_, ?_, ?_⟩
  · rw [pingCalls_check, hreq, hdo]
    simp only [if_neg hs, hdec, if_pos hl, hbody]
    rfl
  · exact containsText_append_right _ (by decide)
  · exact containsText_append_left _ (containsText_refl _)
  · intro ser hser
    simp only [marshalText, hser]
  · intro e he
    simp only [marshalText, he]

/-- C9, amended, at the second scenario: status 200 and one alert named X. -/
theorem check_alerts_body_text_witness :
    containsText "prometheus reported active alerts"
      ("prometheus reported active alerts alerts=" ++
        (marshalText sampleLib [some [("alertname", "X")]])) :=
  (check_alerts_body_text sampleLib sampleNet sampleCLI (sampleWorld oneAlert) oneAlert
    [some [("alertname", "X")]] rfl rfl (by decide) (by decide) rfl (by decide)).2.1

/-- C10: every run of `check` calls `ping` exactly once, for the success
endpoint or for the failure endpoint.  The call is the success ping exactly
when the request was built and executed without error, `StatusCode/100 == 2`,
the body decoded without error and the decoded alert list is empty; that
test on the status code, with the quotient truncated toward zero, holds for
exactly the integers from 200 to 299.  Which ping is called is the same
whatever the ping's own request and response turn out to be.  The requests
sent in the run are the monitoring request, when it can be built, and one
request for the call of `ping`, when that one can be built. -/
theorem check_pings_exactly_once {α : Type} (lib : JsonLib α) (net : NetURL U) (cli : CLI U) (w : World) :
    (pingCalls (check lib net cli w) = [successPing net cli] ∨
      ∃ text, pingCalls (check lib net cli w) = [failurePing net cli text]) ∧
    (pingCalls (check lib net cli w) = [successPing net cli] ↔
      w.newRequest = none ∧ ∃ resp, w.doResult = .ok resp ∧ Int.tdiv resp.StatusCode 100 = 2 ∧
        ∃ alerts, Decode lib resp.Body = .ok alerts ∧ alerts.length = 0) ∧
    (∀ text, successPing net cli ≠ failurePing net cli text) ∧
    (∀ code : Int, Int.tdiv code 100 = 2 ↔ 200 ≤ code ∧ code ≤ 299) ∧
    (∀ (pingNewRequest : Option String) (pingDo : Except String Response) (tPing : Time),
      pingCalls (check lib net cli
        { w with pingNewRequest := pingNewRequest, pingDo := pingDo, tPing := tPing }) =
      pingCalls (check lib net cli w)) ∧
    sends (check lib net cli w) =
      (if w.newRequest = none then [("GET", net.JoinPath cli.PrometheusBaseURL ["api/v1/alerts"])]
        else []) ++
      if w.pingNewRequest = none then (pingCalls (check lib net cli w)).map fun p => (p.method, p.url)
      else [] := by
  have hne : ∀ text, successPing net cli ≠ failurePing net cli text := by
    intro text h
    have := congrArg PingCall.name h
    simp [successPing, failurePing] at this
  have hne2 : ∀ text, [failurePing net cli text] ≠ [successPing net cli] := by
    intro text h
    exact hne text (List.singleton_inj.mp h).symm
  refine ⟨?_, ?_, hne, tdiv_hundred_eq_two, ?_, sends_check lib net cli w⟩
  · rw [pingCalls_check]
    cases w.newRequest with
    | some err => exact Or.inr ⟨_, rfl⟩
    | none =>
      cases w.doResult with
      | error err => exact Or.inr ⟨_, rfl⟩
      | ok resp =>
        by_cases hs : Int.tdiv resp.StatusCode 100 ≠ 2
        · simp only [if_pos hs]; exact Or.inr ⟨_, rfl⟩
        · simp only [if_neg hs]
          cases Decode lib resp.Body with
          | error err => exact Or.inr ⟨_, rfl⟩
          | ok alerts =>
            by_cases hl : alerts.length ≠ 0
            · simp only [if_pos hl]; exact Or.inr ⟨_, rfl⟩
            · simp only [if_neg hl]; exact Or.inl trivial
  · rw [pingCalls_check]
    cases hreq : w.newRequest with
    | some err =>
      simp only [reduceCtorEq, false_and, iff_false]
      exact hne2 _
    | none =>
      cases hdo : w.doResult with
      | error err =>
        simp only [reduceCtorEq, false_and, exists_false, and_false, iff_false]
        exact hne2 _
      | ok resp =>
        by_cases hs : Int.tdiv resp.StatusCode 100 ≠ 2
        · simp only [if_pos hs]
          constructor
          · intro h; exact absurd h (hne2 _)
          · rintro ⟨_, resp1, hresp, hcode, _⟩
            have : resp = resp1 := Except.ok.inj hresp
            subst this
            exact absurd hcode hs
        · simp only [if_neg hs]
          cases hdec : Decode lib resp.Body with
          | error err =>
            constructor
            · intro h; exact absurd h (hne2 _)
            · rintro ⟨_, resp1, hresp, _, alerts, hal, _⟩
              have : resp = resp1 := Except.ok.inj hresp
              subst this
              rw [hdec] at hal
              cases hal
          | ok alerts =>
            by_cases hl : alerts.length ≠ 0
            · simp only [if_pos hl]
              constructor
              · intro h; exact absurd h (hne2 _)
              · rintro ⟨_, resp1, hresp, _, alerts1, hal, hlen⟩
                have : resp = resp1 := Except.ok.inj hresp
                subst this
                rw [hdec] at hal
                have : alerts = alerts1 := Except.ok.inj hal
                subst this
                exact absurd hlen hl
            · simp only [if_neg hl, true_iff]
              exact ⟨trivial, resp, rfl, not_not.mp hs, alerts, hdec, not_not.mp hl⟩
  · intro pn pd tp
    rw [pingCalls_check, pingCalls_check]

end PrometheusHealthchecks
